import Mathlib

/-!
Verification of the Unity/React bridge core (`src/unity/unityBridge.js`,
`src/unity/unityEventBus.js`, `src/unity/useUnityLoader.js`) by a shallow
embedding: JavaScript values are modelled by `JsVal`, `JSON.parse` /
`JSON.stringify` by executable Lean functions, and each module's mutable
state by an explicit state record with one Lean function per operation.
-/

namespace ReactUnity

/-- JavaScript values, as far as the bridge core manipulates them.
A number is an exact decimal `m * 10 ^ e`, kept canonical (`m` is never a
nonzero multiple of ten, and zero is `(0, 0)`), so two numeric literals
denote the same value iff their representations are equal; float rounding
is not modelled and no property here depends on it.  Objects are
insertion-ordered field lists; functions do not occur as payloads in the
modelled code paths. -/
inductive JsVal where
  | undef : JsVal
  | null : JsVal
  | bool (b : Bool) : JsVal
  | num (m : Int) (e : Int) : JsVal
  | str (s : String) : JsVal
  | arr (elems : List JsVal) : JsVal
  | obj (fields : List (String × JsVal)) : JsVal
deriving Repr

/-- The embedding of a JavaScript integer literal. -/
def JsVal.int (n : Int) : JsVal := .num n 0

mutual

/-- Decidable equality on `JsVal` (the derive handler does not support
this nested inductive, so it is written out). -/
def JsVal.decEq : (a b : JsVal) → Decidable (a = b)
  | .undef, .undef => isTrue rfl
  | .null, .null => isTrue rfl
  | .bool a, .bool b =>
    if h : a = b then isTrue (by rw [h])
    else isFalse (by intro hh; injection hh; contradiction)
  | .num a b, .num c d =>
    if h : a = c ∧ b = d then isTrue (by rw [h.1, h.2])
    else isFalse (by intro hh; injection hh with h1 h2; exact h ⟨h1, h2⟩)
  | .str a, .str b =>
    if h : a = b then isTrue (by rw [h])
    else isFalse (by intro hh; injection hh; contradiction)
  | .arr xs, .arr ys =>
    match decEqJsList xs ys with
    | isTrue h => isTrue (by rw [h])
    | isFalse h => isFalse (by intro hh; injection hh; contradiction)
  | .obj fs, .obj gs =>
    match decEqJsFields fs gs with
    | isTrue h => isTrue (by rw [h])
    | isFalse h => isFalse (by intro hh; injection hh; contradiction)
  | .undef, .null | .undef, .bool _ | .undef, .num _ _ | .undef, .str _
  | .undef, .arr _ | .undef, .obj _ | .null, .undef | .null, .bool _
  | .null, .num _ _ | .null, .str _ | .null, .arr _ | .null, .obj _
  | .bool _, .undef | .bool _, .null | .bool _, .num _ _ | .bool _, .str _
  | .bool _, .arr _ | .bool _, .obj _ | .num _ _, .undef | .num _ _, .null
  | .num _ _, .bool _ | .num _ _, .str _ | .num _ _, .arr _ | .num _ _, .obj _
  | .str _, .undef | .str _, .null | .str _, .bool _ | .str _, .num _ _
  | .str _, .arr _ | .str _, .obj _ | .arr _, .undef | .arr _, .null
  | .arr _, .bool _ | .arr _, .num _ _ | .arr _, .str _ | .arr _, .obj _
  | .obj _, .undef | .obj _, .null | .obj _, .bool _ | .obj _, .num _ _
  | .obj _, .str _ | .obj _, .arr _ => isFalse (by intro hh; exact JsVal.noConfusion hh)

def decEqJsList : (xs ys : List JsVal) → Decidable (xs = ys)
  | [], [] => isTrue rfl
  | x :: xs, y :: ys =>
    match JsVal.decEq x y, decEqJsList xs ys with
    | isTrue h1, isTrue h2 => isTrue (by rw [h1, h2])
    | isFalse h1, _ => isFalse (by intro hh; injection hh; contradiction)
    | _, isFalse h2 => isFalse (by intro hh; injection hh; contradiction)
  | [], _ :: _ => isFalse (by intro hh; exact List.noConfusion hh)
  | _ :: _, [] => isFalse (by intro hh; exact List.noConfusion hh)

def decEqJsFields : (fs gs : List (String × JsVal)) → Decidable (fs = gs)
  | [], [] => isTrue rfl
  | (k, v) :: fs, (l, w) :: gs =>
    if hk : k = l then
      match JsVal.decEq v w, decEqJsFields fs gs with
      | isTrue h1, isTrue h2 => isTrue (by rw [hk, h1, h2])
      | isFalse h1, _ => isFalse (by
          intro hh; injection hh with hp hs
          exact h1 (congrArg Prod.snd hp))
      | _, isFalse h2 => isFalse (by intro hh; injection hh; contradiction)
    else isFalse (by
      intro hh; injection hh with hp hs
      exact hk (congrArg Prod.fst hp))
  | [], _ :: _ => isFalse (by intro hh; exact List.noConfusion hh)
  | _ :: _, [] => isFalse (by intro hh; exact List.noConfusion hh)

end

instance : DecidableEq JsVal := JsVal.decEq

/-! ### JSON parsing (model of `JSON.parse`)

A recursive-descent parser over the character list, with fuel bounded by
the input length.  It accepts the JSON grammar: literals, strings with
escapes, numbers (sign, integer part, fraction, exponent), arrays and
objects, with insignificant whitespace. -/

def isJsonWs (c : Char) : Bool :=
  c = ' ' || c = '\t' || c = '\n' || c = '\r'

def skipWs : List Char → List Char
  | [] => []
  | c :: rest => if isJsonWs c then skipWs rest else c :: rest

def isDigit (c : Char) : Bool := '0' ≤ c && c ≤ '9'

def digitVal (c : Char) : Nat := c.toNat - '0'.toNat

/-- Lex a run of digits, returning their value, count, and the rest. -/
def lexDigits : List Char → Nat → Nat → Nat × Nat × List Char
  | [], acc, n => (acc, n, [])
  | c :: rest, acc, n =>
    if isDigit c then lexDigits rest (acc * 10 + digitVal c) (n + 1)
    else (acc, n, c :: rest)

/-- Strip factors of ten from a nonzero mantissa, raising the exponent;
`fuel` bounds the number of strips (the mantissa itself suffices). -/
def stripTens : Nat → Nat → Int → Nat × Int
  | 0, m, e => (m, e)
  | fuel + 1, m, e =>
    if m != 0 && m % 10 == 0 then stripTens fuel (m / 10) (e + 1) else (m, e)

/-- Canonicalize a decimal `m * 10 ^ e` so the representation is unique. -/
def canonNum (m : Int) (e : Int) : Int × Int :=
  if m = 0 then (0, 0)
  else
    let n := m.natAbs
    let (n', e') := stripTens n n e
    (if m < 0 then -(n' : Int) else (n' : Int), e')

/-- Parse a JSON number after an optional leading minus sign has been
consumed: integer part, optional fraction, optional exponent; the value is
returned in canonical decimal form. -/
def lexNumber (neg : Bool) (cs : List Char) : Option ((Int × Int) × List Char) :=
  let (ip, ipn, cs1) := lexDigits cs 0 0
  if ipn = 0 then none else
  let (frac, fn, cs2) :=
    match cs1 with
    | '.' :: cs1' =>
      let (f, fl, cs'') := lexDigits cs1' 0 0
      (f, fl, cs'')
    | _ => (0, 0, cs1)
  let fracBad : Bool := match cs1 with | '.' :: _ => fn == 0 | _ => false
  if fracBad then none else
  let expRes : Option (Int × List Char) :=
    match cs2 with
    | 'e' :: cs3 | 'E' :: cs3 =>
      let (esign, cs4) :=
        match cs3 with
        | '+' :: r => ((1 : Int), r)
        | '-' :: r => ((-1 : Int), r)
        | r => ((1 : Int), r)
      let (e, en, cs5) := lexDigits cs4 0 0
      if en = 0 then none else some (esign * (e : Int), cs5)
    | _ => some (0, cs2)
  match expRes with
  | none => none
  | some (e, rest) =>
    let mant : Nat := ip * 10 ^ fn + frac
    let m : Int := if neg then -(mant : Int) else (mant : Int)
    some (canonNum m (e - (fn : Int)), rest)

def hexVal (c : Char) : Option Nat :=
  let n := c.toNat
  if isDigit c then some (digitVal c)
  else if 'a' ≤ c && c ≤ 'f' then some (n - 87)
  else if 'A' ≤ c && c ≤ 'F' then some (n - 55)
  else none

/-- Lex a JSON string body (the opening quote already consumed),
handling the escape sequences of the JSON grammar. -/
def lexString : List Char → List Char → Option (String × List Char)
  | [], _ => none
  | '"' :: rest, acc => some (String.mk acc.reverse, rest)
  | '\\' :: esc :: rest, acc =>
    match esc with
    | '"' => lexString rest ('"' :: acc)
    | '\\' => lexString rest ('\\' :: acc)
    | '/' => lexString rest ('/' :: acc)
    | 'b' => lexString rest ('\x08' :: acc)
    | 'f' => lexString rest ('\x0c' :: acc)
    | 'n' => lexString rest ('\n' :: acc)
    | 'r' => lexString rest ('\r' :: acc)
    | 't' => lexString rest ('\t' :: acc)
    | 'u' =>
      match rest with
      | h1 :: h2 :: h3 :: h4 :: rest' =>
        match hexVal h1, hexVal h2, hexVal h3, hexVal h4 with
        | some a, some b, some c, some d =>
          let n := ((a * 16 + b) * 16 + c) * 16 + d
          lexString rest' (Char.ofNat n :: acc)
        | _, _, _, _ => none
      | _ => none
    | _ => none
  | '\\' :: [], _ => none
  | c :: rest, acc =>
    if c.toNat < 32 then none else lexString rest (c :: acc)

/-- Check a literal prefix, returning the remainder on success. -/
def lexLit : List Char → List Char → Option (List Char)
  | [], cs => some cs
  | l :: ls, c :: cs => if l = c then lexLit ls cs else none
  | _ :: _, [] => none

mutual

/-- Parse one JSON value.  `fuel` strictly decreases across the mutual
calls; any input of length `n` is handled by fuel `n + 1`. -/
def parseVal (fuel : Nat) (cs : List Char) : Option (JsVal × List Char) :=
  match fuel with
  | 0 => none
  | fuel + 1 =>
    match skipWs cs with
    | [] => none
    | c :: rest =>
      if c = '"' then
        (lexString rest []).map (fun (s, r) => (JsVal.str s, r))
      else if c = '\x7b' then
        match skipWs rest with
        | '\x7d' :: r => some (JsVal.obj [], r)
        | cs' => (parseMembers fuel cs' []).map (fun (fs, r) => (JsVal.obj fs, r))
      else if c = '[' then
        match skipWs rest with
        | ']' :: r => some (JsVal.arr [], r)
        | cs' => (parseElems fuel cs' []).map (fun (xs, r) => (JsVal.arr xs, r))
      else if c = 't' then
        (lexLit ['r', 'u', 'e'] rest).map (fun r => (JsVal.bool true, r))
      else if c = 'f' then
        (lexLit ['a', 'l', 's', 'e'] rest).map (fun r => (JsVal.bool false, r))
      else if c = 'n' then
        (lexLit ['u', 'l', 'l'] rest).map (fun r => (JsVal.null, r))
      else if c = '-' then
        (lexNumber true rest).map (fun (p, r) => (JsVal.num p.1 p.2, r))
      else if isDigit c then
        (lexNumber false (c :: rest)).map (fun (p, r) => (JsVal.num p.1 p.2, r))
      else none

/-- Parse the members of an object after `{` (first member expected). -/
def parseMembers (fuel : Nat) (cs : List Char) (acc : List (String × JsVal)) :
    Option (List (String × JsVal) × List Char) :=
  match fuel with
  | 0 => none
  | fuel + 1 =>
    match skipWs cs with
    | '"' :: rest =>
      match lexString rest [] with
      | none => none
      | some (k, r1) =>
        match skipWs r1 with
        | ':' :: r2 =>
          match parseVal fuel r2 with
          | none => none
          | some (v, r3) =>
            match skipWs r3 with
            | ',' :: r4 => parseMembers fuel r4 ((k, v) :: acc)
            | '\x7d' :: r4 => some (((k, v) :: acc).reverse, r4)
            | _ => none
        | _ => none
    | _ => none

/-- Parse the elements of an array after `[` (first element expected). -/
def parseElems (fuel : Nat) (cs : List Char) (acc : List JsVal) :
    Option (List JsVal × List Char) :=
  match fuel with
  | 0 => none
  | fuel + 1 =>
    match parseVal fuel cs with
    | none => none
    | some (v, r1) =>
      match skipWs r1 with
      | ',' :: r2 => parseElems fuel r2 (v :: acc)
      | ']' :: r2 => some ((v :: acc).reverse, r2)
      | _ => none

end

/-- Model of `JSON.parse(s)`: `some v` when `s` is a valid JSON document,
`none` when `JSON.parse` would throw a `SyntaxError`. -/
def jsonParse (s : String) : Option JsVal :=
  match parseVal (s.length + 1) s.toList with
  | some (v, rest) => if skipWs rest = [] then some v else none
  | none => none

/-! ### JSON serialization (model of `JSON.stringify`) -/

def hexDigit (n : Nat) : Char :=
  if n < 10 then Char.ofNat ('0'.toNat + n) else Char.ofNat ('a'.toNat + n - 10)

/-- Escape one character as `JSON.stringify` does inside string literals. -/
def escChar (c : Char) : List Char :=
  if c = '"' then ['\\', '"']
  else if c = '\\' then ['\\', '\\']
  else if c = '\x08' then ['\\', 'b']
  else if c = '\t' then ['\\', 't']
  else if c = '\n' then ['\\', 'n']
  else if c = '\x0c' then ['\\', 'f']
  else if c = '\r' then ['\\', 'r']
  else if c.toNat < 32 then
    ['\\', 'u', '0', '0', hexDigit (c.toNat / 16), hexDigit (c.toNat % 16)]
  else [c]

/-- Render a string as a JSON string literal. -/
def quoteJson (s : String) : String :=
  String.mk ('"' :: ((s.toList.map escChar).flatten ++ ['"']))

/-- Render a canonical decimal number the way JS prints it in the normal
range (scientific notation for extreme magnitudes is not modelled; no
claim sends such a number). -/
def numToString (m : Int) (e : Int) : String :=
  if 0 ≤ e then toString m ++ String.mk (List.replicate e.toNat '0')
  else
    let k := (-e).toNat
    let ds := (toString m.natAbs).toList
    let ds' := if ds.length ≤ k then List.replicate (k + 1 - ds.length) '0' ++ ds else ds
    (if m < 0 then "-" else "") ++ String.mk (ds'.take (ds'.length - k)) ++ "." ++
      String.mk (ds'.drop (ds'.length - k))

mutual

/-- Model of `JSON.stringify(v)`: `none` models the JS result `undefined`
(for `undefined` input); object members whose value is not serializable
are omitted, array holes become `null`, exactly as in JS.  On the acyclic
values of `JsVal` the JS function cannot throw. -/
def jsonStringify : JsVal → Option String
  | .undef => none
  | .null => some "null"
  | .bool b => some (if b then "true" else "false")
  | .num m e => some (numToString m e)
  | .str s => some (quoteJson s)
  | .arr xs => some ("[" ++ String.intercalate "," (stringifyElems xs) ++ "]")
  | .obj fs => some ("\x7b" ++ String.intercalate "," (stringifyFields fs) ++ "\x7d")

def stringifyElems : List JsVal → List String
  | [] => []
  | v :: vs => ((jsonStringify v).getD "null") :: stringifyElems vs

def stringifyFields : List (String × JsVal) → List String
  | [] => []
  | (k, v) :: fs =>
    match jsonStringify v with
    | some sv => (quoteJson k ++ ":" ++ sv) :: stringifyFields fs
    | none => stringifyFields fs

end

/-! ## The Bridge (`src/unity/unityBridge.js`)

The module-level mutable variables `unityInstance`, `queuedSends`,
`_readyPromise`/`_readyResolve` become the fields of `BridgeState`; every
exported function becomes a state-passing Lean function.  Promises are
identified by allocation order (`nextPromise` is the fresh-id source);
`resolutions` records which pending promise was resolved with which
value.  `calls` is the trace of `SendMessage` invocations on handles. -/

/-- An instance handle: `hasSendMessage` models
`typeof instance.SendMessage === 'function'`, `sendRaises` whether its
`SendMessage` throws when invoked, and `hasQuit` whether the instance
exposes a `Quit` method (the loader guards `instance.Quit && ...`). -/
structure Handle where
  hid : Nat
  hasSendMessage : Bool
  sendRaises : Bool
  hasQuit : Bool
deriving DecidableEq, Repr

/-- The third argument passed to `SendMessage`: a string, or `undefined`
when the payload was `undefined` (the serialization guard skips it). -/
inductive SendArg where
  | strA (s : String)
  | undefA
deriving DecidableEq, Repr

/-- An entry of `queuedSends`. -/
structure OutboundMessage where
  objectName : String
  methodName : String
  payload : JsVal
deriving DecidableEq, Repr

/-- One recorded `SendMessage` invocation on a handle. -/
structure CallRec where
  toHandle : Nat
  objectName : String
  methodName : String
  arg : SendArg
deriving DecidableEq, Repr

structure BridgeState where
  unityInstance : Option Handle
  queuedSends : List OutboundMessage
  readyPromise : Option Nat
  nextPromise : Nat
  resolutions : List (Nat × Option Handle)
  calls : List CallRec
deriving DecidableEq, Repr

/-- The module's initial state. -/
def BridgeState.init : BridgeState := ⟨none, [], none, 0, [], []⟩

/-- The serialization step of `doSend`: `payload` is kept when it is a
string, left `undefined` when `undefined`, and otherwise stringified.
On the acyclic values of `JsVal`, `JSON.stringify` neither throws (so the
`String(payload)` fallback is unreachable) nor returns `undefined` for a
non-`undefined` argument, hence the `getD` default is dead code. -/
def sendArgOf (payload : JsVal) : SendArg :=
  match payload with
  | .undef => .undefA
  | .str s => .strA s
  | p => .strA ((jsonStringify p).getD "")

/-- `doSend(objectName, methodName, payload)`: `false` when no usable
handle is installed; otherwise serializes the payload, invokes
`SendMessage` (recorded in `calls`), and reports whether the call threw. -/
def doSend (st : BridgeState) (objectName methodName : String) (payload : JsVal) :
    BridgeState × Bool :=
  match st.unityInstance with
  | none => (st, false)
  | some h =>
    if h.hasSendMessage then
      ({ st with
          calls := st.calls ++ [⟨h.hid, objectName, methodName, sendArgOf payload⟩] },
        !h.sendRaises)
    else (st, false)

/-- The flush loop of `setInstance`: each queued item is attempted via
`doSend` (failures are swallowed), then the queue is emptied. -/
def flushQueue (st : BridgeState) : BridgeState :=
  let st' := st.queuedSends.foldl
    (fun s item => (doSend s item.objectName item.methodName item.payload).1) st
  { st' with queuedSends := [] }

/-- The readiness-resolution tail of `setInstance`: if `_readyResolve`
is set, resolve the pending promise with the just-installed value and
null out the promise pair. -/
def resolveReady (st : BridgeState) (inst : Option Handle) : BridgeState :=
  match st.readyPromise with
  | some pid =>
    { st with resolutions := st.resolutions ++ [(pid, inst)], readyPromise := none }
  | none => st

/-- `setInstance(instance)`: installs the handle, flushes the queue when
the new handle is truthy and the queue nonempty, and resolves any pending
readiness promise with the just-installed value. -/
def setInstance (st : BridgeState) (inst : Option Handle) : BridgeState :=
  let st1 := { st with unityInstance := inst }
  resolveReady (if inst.isSome && !st1.queuedSends.isEmpty then flushQueue st1 else st1) inst

/-- `clearInstance()`: drops the handle and the queue and abandons the
pending readiness promise so the next `whenReady` waits afresh. -/
def clearInstance (st : BridgeState) : BridgeState :=
  { st with unityInstance := none, queuedSends := [], readyPromise := none }

/-- `send(objectName, methodName, payload, {queue})`. -/
def send (st : BridgeState) (objectName methodName : String) (payload : JsVal)
    (queue : Bool) : BridgeState × Bool :=
  match st.unityInstance with
  | some h =>
    if h.hasSendMessage then doSend st objectName methodName payload
    else if queue then
      ({ st with queuedSends := st.queuedSends ++ [⟨objectName, methodName, payload⟩] }, true)
    else (st, false)
  | none =>
    if queue then
      ({ st with queuedSends := st.queuedSends ++ [⟨objectName, methodName, payload⟩] }, true)
    else (st, false)

/-- Issue a sequence of queuing `send` calls one after the other,
collecting the results in order. -/
def sendMany (st : BridgeState) : List OutboundMessage → BridgeState × List Bool
  | [] => (st, [])
  | m :: rest =>
    let r := send st m.objectName m.methodName m.payload true
    let r' := sendMany r.1 rest
    (r'.1, r.2 :: r'.2)

/-- `unityApi.send(payload, objectName, methodName, queue)`: forwards to
the Bridge when both names are truthy (nonempty), otherwise warns and
reports failure. -/
def apiSend (st : BridgeState) (payload : JsVal) (objectName methodName : String)
    (queue : Bool) : BridgeState × Bool :=
  if objectName ≠ "" ∧ methodName ≠ "" then send st objectName methodName payload queue
  else (st, false)

/-- The guard `unityInstance && typeof unityInstance.SendMessage ===
'function'` of `send`. -/
def hasLiveHandle (st : BridgeState) : Bool :=
  match st.unityInstance with
  | some h => h.hasSendMessage
  | none => false

/-- What `whenReady()` hands back: a freshly resolved promise
(`Promise.resolve(handle)`) or the shared pending readiness promise. -/
inductive Future where
  | resolvedNow (h : Handle)
  | pending (pid : Nat)
deriving DecidableEq, Repr

/-- `whenReady()`: immediate when a handle exists, otherwise the shared
pending promise, created on first demand. -/
def whenReady (st : BridgeState) : BridgeState × Future :=
  match st.unityInstance with
  | some h => (st, .resolvedNow h)
  | none =>
    match st.readyPromise with
    | some pid => (st, .pending pid)
    | none =>
      ({ st with readyPromise := some st.nextPromise, nextPromise := st.nextPromise + 1 },
        .pending st.nextPromise)

/-! ### Inbound dispatch (`_windowUnityMessageListener` and the handler
registries)

Handlers are JS functions; they are identified by numbers, and an
environment `env : Nat → Bool` says which of them throw when invoked.
Dispatch returns the trace of invocations — the listener itself mutates
none of the module's state, and every handler fault is caught inside the
`for` loops of `emitToHandlers` / `emitToGlobalHandlers`. -/

/-- The two registries: `handlers` (a `Map` keyed by the event name, kept
in insertion order with unique keys) and the `globalHandlers` set. -/
structure Registry where
  handlers : List (JsVal × List Nat)
  globalHandlers : List Nat
deriving DecidableEq, Repr

def Registry.init : Registry := ⟨[], []⟩

def lookupHandlers (reg : Registry) (ty : JsVal) : Option (List Nat) :=
  (reg.handlers.find? (fun p => decide (p.1 = ty))).map (fun p => p.2)

/-- `registerHandler(eventName, fn)`: create the set on demand, then
`Set.add` (a no-op when `fn` is already a member). -/
def registerHandler (reg : Registry) (ty : JsVal) (fn : Nat) : Registry :=
  if (lookupHandlers reg ty).isSome then
    { reg with handlers := reg.handlers.map (fun p =>
        if p.1 = ty then (p.1, if fn ∈ p.2 then p.2 else p.2 ++ [fn]) else p) }
  else { reg with handlers := reg.handlers ++ [(ty, [fn])] }

/-- `unregisterHandler(eventName, fn)`: remove the member and drop the
now-empty set from the map. -/
def unregisterHandler (reg : Registry) (ty : JsVal) (fn : Nat) : Registry :=
  match lookupHandlers reg ty with
  | none => reg
  | some s =>
    let s' := s.erase fn
    if s'.isEmpty then
      { reg with handlers := reg.handlers.filter (fun p => !decide (p.1 = ty)) }
    else
      { reg with handlers := reg.handlers.map (fun p => if p.1 = ty then (p.1, s') else p) }

/-- `registerGlobalHandler(fn)` (`fn` always a function here). -/
def registerGlobalHandler (reg : Registry) (fn : Nat) : Registry :=
  if fn ∈ reg.globalHandlers then reg
  else { reg with globalHandlers := reg.globalHandlers ++ [fn] }

/-- `unregisterGlobalHandler(fn)`. -/
def unregisterGlobalHandler (reg : Registry) (fn : Nat) : Registry :=
  { reg with globalHandlers := reg.globalHandlers.erase fn }

/-- One per-type handler invocation: which handler, with what payload,
and whether it threw (the throw is caught at the dispatch boundary). -/
structure Invocation where
  handler : Nat
  payload : JsVal
  raised : Bool
deriving DecidableEq, Repr

/-- One global-observer invocation `(type, payload, meta)`. -/
structure GInvocation where
  handler : Nat
  type : JsVal
  payload : JsVal
  meta : JsVal
  raised : Bool
deriving DecidableEq, Repr

/-- `emitToHandlers(eventName, payload)`: every member of the type's set
is invoked (over a snapshot, `Array.from(s)`); a throwing handler is
caught and logged, never stopping the loop. -/
def emitToHandlers (reg : Registry) (env : Nat → Bool) (ty : JsVal) (payload : JsVal) :
    List Invocation :=
  match lookupHandlers reg ty with
  | none => []
  | some s => s.map (fun f => ⟨f, payload, env f⟩)

/-- `emitToGlobalHandlers(type, payload, meta)` under the same isolation. -/
def emitToGlobalHandlers (reg : Registry) (env : Nat → Bool) (ty payload mv : JsVal) :
    List GInvocation :=
  reg.globalHandlers.map (fun f => ⟨f, ty, payload, mv, env f⟩)

/-- Truthiness combined with `typeof detail === 'object'`: only (plain or
array) objects pass the listener's guard — `null` is typeof `'object'`
but falsy, everything else is not an object. -/
def isTruthyObject (v : JsVal) : Bool :=
  match v with
  | .obj _ => true
  | .arr _ => true
  | _ => false

/-- JS property access `v.k` with `undefined` for absent properties or
non-object receivers (array index properties are not used here). -/
def getField (v : JsVal) (k : String) : JsVal :=
  match v with
  | .obj fs => ((fs.reverse.find? (fun p => decide (p.1 = k))).map (fun p => p.2)).getD .undef
  | _ => (.undef)

/-- The payload normalization of the listener: a string payload is parsed
as JSON when possible, kept verbatim otherwise; a non-string payload
passes through unchanged. -/
def normalizePayload (payload : JsVal) : JsVal :=
  match payload with
  | .str s =>
    match jsonParse s with
    | some v => v
    | none => .str s
  | p => p

/-- The combined guard of the listener: the detail is a (truthy) object
and its `type` is neither `undefined` nor `null`. -/
def listenerAccepts (detail : JsVal) : Bool :=
  isTruthyObject detail &&
    !(decide (getField detail "type" = .undef) || decide (getField detail "type" = .null))

/-- `_windowUnityMessageListener(e)`: the input is `e.detail`
(`JsVal.undef` standing for a missing `detail` or a falsy event).  The
guards drop non-object details and null/undefined types; otherwise the
payload is normalized once and handed first to the per-type handlers and
then to the global observers.  The listener mutates no module state. -/
def dispatchEvent (reg : Registry) (env : Nat → Bool) (detail : JsVal) :
    List Invocation × List GInvocation :=
  if !isTruthyObject detail then ([], [])
  else
    let ty := getField detail "type"
    if ty = .undef ∨ ty = .null then ([], [])
    else
      let normalized := normalizePayload (getField detail "payload")
      (emitToHandlers reg env ty normalized,
        emitToGlobalHandlers reg env ty normalized (getField detail "meta"))

/-! ## The EventBus (`src/unity/unityEventBus.js`)

The module variables `subscribers` and `_installed` become `BusState`;
whether `_globalForwarder` currently sits in the Bridge's global-observer
set (`unityApi.onMessage` / `offMessage`) is mirrored by
`bridgeForwarder`.  Subscribers are function values identified by
numbers; `HSpec` gives each one's behavior. -/

structure BusState where
  subscribers : List (JsVal × List Nat)
  installed : Bool
  bridgeForwarder : Bool
deriving DecidableEq, Repr

def BusState.init : BusState := ⟨[], false, false⟩

def busLookup (st : BusState) (ty : JsVal) : Option (List Nat) :=
  (st.subscribers.find? (fun p => decide (p.1 = ty))).map (fun p => p.2)

/-- `_install()`: registers `_globalForwarder` with the Bridge via
`unityApi.onMessage`, guarded by `_installed` (registering a function
value cannot throw, so the failure branch is not taken). -/
def busInstall (st : BusState) : BusState :=
  if st.installed then st else { st with bridgeForwarder := true, installed := true }

/-- `_subscriberCount()`. -/
def busCount (st : BusState) : Nat :=
  (st.subscribers.map (fun p => p.2.length)).sum

/-- `_maybeUninstall()`: removes the forwarder from the Bridge when no
subscriber remains anywhere. -/
def busMaybeUninstall (st : BusState) : BusState :=
  if st.installed && busCount st == 0 then
    { st with bridgeForwarder := false, installed := false }
  else st

/-- `subscribe(type, handler)` for a function-valued handler: install on
demand, then `Set.add` into the type's set.  The unsubscriber it returns
is `unsubscribe ty h`. -/
def subscribe (st : BusState) (ty : JsVal) (h : Nat) : BusState :=
  let st1 := busInstall st
  match busLookup st1 ty with
  | some _ =>
    { st1 with subscribers := st1.subscribers.map (fun p =>
        if p.1 = ty then (p.1, if h ∈ p.2 then p.2 else p.2 ++ [h]) else p) }
  | none => { st1 with subscribers := st1.subscribers ++ [(ty, [h])] }

/-- `unsubscribe(type, handler)`: nothing when the type has no set (note
the early return skips `_maybeUninstall`); otherwise remove the member,
drop the set when empty, and re-evaluate the forwarder installation. -/
def unsubscribe (st : BusState) (ty : JsVal) (h : Nat) : BusState :=
  match busLookup st ty with
  | none => st
  | some s =>
    let s' := s.erase h
    let st1 :=
      if s'.isEmpty then
        { st with subscribers := st.subscribers.filter (fun p => !decide (p.1 = ty)) }
      else
        { st with subscribers := st.subscribers.map (fun p =>
            if p.1 = ty then (p.1, s') else p) }
    busMaybeUninstall st1

/-- `once(type, handler)`: subscribes the wrapping closure (identified by
`w`; its behavior is `HSpec.onceWrap` in the environment). -/
def once (st : BusState) (ty : JsVal) (w : Nat) : BusState :=
  subscribe st ty w

/-- `clear(type?)`. -/
def clear (st : BusState) (ty : Option JsVal) : BusState :=
  match ty with
  | none => busMaybeUninstall { st with subscribers := [] }
  | some t =>
    busMaybeUninstall
      { st with subscribers := st.subscribers.filter (fun p => !decide (p.1 = t)) }

/-- The EventBus well-formedness invariant of C8: the bus's `_installed`
flag mirrors actual membership of the forwarder in the Bridge's global
set, the forwarder is installed iff some subscriber exists anywhere, and
no empty per-type set is retained. -/
def BusWF (st : BusState) : Prop :=
  st.bridgeForwarder = st.installed ∧
  (st.installed = true ↔ 0 < busCount st) ∧
  (∀ p ∈ st.subscribers, p.2 ≠ [])

instance (st : BusState) : Decidable (BusWF st) := by
  unfold BusWF
  infer_instance

/-- Behavior of one bus subscriber: a plain application handler (which
may throw), or the closure built by `once` — it runs the wrapped
application handler `inner` and, in a `finally`, unsubscribes itself
(`self` is the closure's own identity in the subscriber set), letting
any throw keep propagating. -/
inductive HSpec where
  | plain (raises : Bool)
  | onceWrap (ty : JsVal) (self : Nat) (inner : Nat) (raises : Bool)

/-- One application-handler invocation performed during bus dispatch. -/
structure BusInv where
  handler : Nat
  payload : JsVal
  meta : JsVal
  raised : Bool
deriving DecidableEq, Repr

/-- Run one subscriber: the state after its side effects, the
application-handler invocations it performed, and whether it threw. -/
def runBusHandler (env : Nat → HSpec) (st : BusState) (h : Nat) (payload mv : JsVal) :
    BusState × List BusInv × Bool :=
  match env h with
  | .plain r => (st, [⟨h, payload, mv, r⟩], r)
  | .onceWrap ty self inner r => (unsubscribe st ty self, [⟨inner, payload, mv, r⟩], r)

/-- `_globalForwarder(type, payload, meta)`: dispatches over a snapshot
of the type's subscriber set; each subscriber's throw is caught and
logged inside the loop. -/
def runForwarder (env : Nat → HSpec) (st : BusState) (ty payload mv : JsVal) :
    BusState × List BusInv :=
  match busLookup st ty with
  | none => (st, [])
  | some s =>
    if s.isEmpty then (st, [])
    else
      s.foldl (fun acc h =>
        let r := runBusHandler env acc.1 h payload mv
        (r.1, acc.2 ++ r.2.1)) (st, [])

/-! ## The Instance Lifecycle Manager (`src/unity/useUnityLoader.js`)

The hook's refs and React state become `LoaderState`; the asynchronous
continuations of `injectLoader`/`initialize` become one transition each,
applied in whatever order the events fire. -/

/-- `LOADING_STATES`. -/
inductive LState where
  | idle | loading | ready | error | reloading
deriving DecidableEq, Repr

/-- The typed load errors the hook can record in `loadError`. -/
inductive LoadErr where
  | canvasNotFound
  | createUnavailable
  | staleLoadResult
  | unmountedDuringCreate
  | creationFailed (e : Nat)
  | loaderScriptFailed
deriving DecidableEq, Repr

structure LoaderState where
  loadId : Nat
  mounted : Bool
  unityInstanceRef : Option Handle
  unityInstance : Option Handle
  loadError : Option LoadErr
  loadingState : LState
  createdRef : Bool
  quits : List Nat
deriving DecidableEq, Repr

/-- The hook's state right after mount (before the initial load). -/
def LoaderState.mount : LoaderState := ⟨0, true, none, none, none, .idle, false, []⟩

/-- `injectLoader()` up to appending the script element: clears
`loadError` and sets state `loading`. -/
def injectLoaderStart (st : LoaderState) : LoaderState :=
  { st with loadError := none, loadingState := .loading }

/-- The script element's `load` listener: `myLoadId = ++loadIdRef.current`
is captured for the creation attempt it starts. -/
def scriptLoaded (st : LoaderState) : LoaderState × Nat :=
  ({ st with loadId := st.loadId + 1 }, st.loadId + 1)

/-- The `.then` branch of `initialize` running when `createUnityInstance`
resolves with `inst`, composed with the `.catch` attached right after it:
a rejection produced inside the `.then` (stale or unmounted) flows into
that catch, which records it in `loadError` and sets state `error`. -/
def createResolved (st : LoaderState) (myLoadId : Nat) (inst : Handle) :
    LoaderState × Except LoadErr Handle :=
  if st.loadId ≠ myLoadId then
    ({ st with
        quits := if inst.hasQuit then st.quits ++ [inst.hid] else st.quits,
        loadError := some .staleLoadResult,
        loadingState := .error },
      .error .staleLoadResult)
  else if !st.mounted then
    ({ st with
        quits := if inst.hasQuit then st.quits ++ [inst.hid] else st.quits,
        loadError := some .unmountedDuringCreate,
        loadingState := .error },
      .error .unmountedDuringCreate)
  else
    ({ st with
        unityInstanceRef := some inst,
        unityInstance := some inst,
        loadingState := .ready,
        createdRef := true },
      .ok inst)

/-- The `.catch` branch when `createUnityInstance` itself rejects
(`e` identifies the engine's rejection value). -/
def createRejected (st : LoaderState) (e : Nat) : LoaderState × LoadErr :=
  ({ st with loadError := some (.creationFailed e), loadingState := .error },
    .creationFailed e)

/-- The script element's `error` listener: records the normalized error
and rejects the `injectLoader` promise — it does not touch
`loadingState`. -/
def scriptFailed (st : LoaderState) : LoaderState × LoadErr :=
  ({ st with loadError := some .loaderScriptFailed }, .loaderScriptFailed)

/-- The instance built by the first (superseded) load attempt. -/
def staleInst : Handle := ⟨1, true, false, true⟩

/-- The instance built by the second (current) load attempt. -/
def freshInst : Handle := ⟨2, true, false, true⟩

/-- Two overlapping `load()` attempts: the first attempt's script load
captures id 1, the second captures id 2; the second attempt's creation
resolves first and commits; then the first attempt's creation resolves,
stale.  The pair is (state after the commit, state after the stale
resolution). -/
def overlapStates : LoaderState × LoaderState :=
  let s1 := (scriptLoaded (injectLoaderStart LoaderState.mount)).1
  let s3 := (scriptLoaded (injectLoaderStart s1)).1
  let s4 := (createResolved s3 2 freshInst).1
  (s4, (createResolved s4 1 staleInst).1)

/-- A concrete well-behaved handle used in witnesses. -/
def testHandle : Handle := ⟨9, true, false, true⟩

/-- The outbound message of the spec's scenario:
`send({userId:'user-123'}, 'JSEventManager', 'OnStartRound')`. -/
def exMsg : OutboundMessage :=
  ⟨"JSEventManager", "OnStartRound", JsVal.obj [("userId", JsVal.str "user-123")]⟩

/-! # Theorems

First some executable sanity checks of the JSON model, then the helper
lemmas, then one theorem per claim (with a closed witness where the
claim's theorem carries hypotheses). -/

theorem jsonParse_object_example :
    jsonParse "\x7b\"a\":1\x7d" = some (JsVal.obj [("a", JsVal.int 1)]) := by decide

theorem jsonParse_rejects_plain_text : jsonParse "not-json" = none := by decide

theorem jsonStringify_object_example :
    jsonStringify (JsVal.obj [("userId", JsVal.str "user-123")]) =
      some "\x7b\"userId\":\"user-123\"\x7d" := by decide

/-! ### Helper lemmas about the Bridge operations -/

theorem doSend_fields (st : BridgeState) (o m : String) (p : JsVal) :
    (doSend st o m p).1.unityInstance = st.unityInstance ∧
    (doSend st o m p).1.queuedSends = st.queuedSends ∧
    (doSend st o m p).1.readyPromise = st.readyPromise ∧
    (doSend st o m p).1.nextPromise = st.nextPromise ∧
    (doSend st o m p).1.resolutions = st.resolutions := by
  unfold doSend
  cases hinst : st.unityInstance with
  | none => simp [hinst]
  | some h => by_cases hh : h.hasSendMessage <;> simp [hh, hinst]

theorem doSend_calls_of_live (st : BridgeState) (h : Handle) (o m : String) (p : JsVal)
    (hinst : st.unityInstance = some h) (hsm : h.hasSendMessage = true) :
    (doSend st o m p).1 =
      { st with calls := st.calls ++ [⟨h.hid, o, m, sendArgOf p⟩] } ∧
    (doSend st o m p).2 = !h.sendRaises := by
  unfold doSend
  rw [hinst]
  simp [hsm]

theorem flushFold_preserves (msgs : List OutboundMessage) (st : BridgeState) :
    (msgs.foldl (fun s item => (doSend s item.objectName item.methodName item.payload).1)
        st).unityInstance = st.unityInstance ∧
    (msgs.foldl (fun s item => (doSend s item.objectName item.methodName item.payload).1)
        st).readyPromise = st.readyPromise ∧
    (msgs.foldl (fun s item => (doSend s item.objectName item.methodName item.payload).1)
        st).nextPromise = st.nextPromise ∧
    (msgs.foldl (fun s item => (doSend s item.objectName item.methodName item.payload).1)
        st).resolutions = st.resolutions := by
  induction msgs generalizing st with
  | nil => exact ⟨rfl, rfl, rfl, rfl⟩
  | cons x rest ih =>
    simp only [List.foldl_cons]
    have h1 := doSend_fields st x.objectName x.methodName x.payload
    have h2 := ih (doSend st x.objectName x.methodName x.payload).1
    exact ⟨h2.1.trans h1.1, h2.2.1.trans h1.2.2.1,
      h2.2.2.1.trans h1.2.2.2.1, h2.2.2.2.trans h1.2.2.2.2⟩

theorem flushFold_calls (msgs : List OutboundMessage) (st : BridgeState) (h : Handle)
    (hinst : st.unityInstance = some h) (hsm : h.hasSendMessage = true) :
    (msgs.foldl (fun s item => (doSend s item.objectName item.methodName item.payload).1)
        st).calls =
      st.calls ++ msgs.map (fun m => ⟨h.hid, m.objectName, m.methodName, sendArgOf m.payload⟩) := by
  induction msgs generalizing st with
  | nil => simp
  | cons x rest ih =>
    simp only [List.foldl_cons, List.map_cons]
    obtain ⟨hd1, _⟩ := doSend_calls_of_live st h x.objectName x.methodName x.payload hinst hsm
    rw [hd1]
    rw [ih { st with
        calls := st.calls ++ [⟨h.hid, x.objectName, x.methodName, sendArgOf x.payload⟩] } hinst]
    simp

theorem flushQueue_fields (st : BridgeState) :
    (flushQueue st).unityInstance = st.unityInstance ∧
    (flushQueue st).queuedSends = [] ∧
    (flushQueue st).readyPromise = st.readyPromise ∧
    (flushQueue st).nextPromise = st.nextPromise ∧
    (flushQueue st).resolutions = st.resolutions := by
  unfold flushQueue
  have h := flushFold_preserves st.queuedSends st
  exact ⟨h.1, rfl, h.2.1, h.2.2.1, h.2.2.2⟩

theorem resolveReady_fields (st : BridgeState) (inst : Option Handle) :
    (resolveReady st inst).unityInstance = st.unityInstance ∧
    (resolveReady st inst).queuedSends = st.queuedSends ∧
    (resolveReady st inst).readyPromise = none ∨ st.readyPromise = none ∧ resolveReady st inst = st := by
  unfold resolveReady
  cases hrp : st.readyPromise with
  | none => right; exact ⟨rfl, rfl⟩
  | some pid => left; exact ⟨rfl, rfl, rfl⟩

theorem resolveReady_all (st : BridgeState) (inst : Option Handle) :
    (resolveReady st inst).unityInstance = st.unityInstance ∧
    (resolveReady st inst).queuedSends = st.queuedSends ∧
    (resolveReady st inst).readyPromise = none ∧
    (resolveReady st inst).nextPromise = st.nextPromise ∧
    (resolveReady st inst).calls = st.calls ∧
    (resolveReady st inst).resolutions =
      st.resolutions ++
        (match st.readyPromise with | some pid => [(pid, inst)] | none => []) := by
  unfold resolveReady
  cases hrp : st.readyPromise with
  | none => simp [hrp]
  | some pid => simp [hrp]

theorem setInstance_fields (st : BridgeState) (inst : Option Handle) :
    (setInstance st inst).unityInstance = inst ∧
    (setInstance st inst).readyPromise = none ∧
    (setInstance st inst).nextPromise = st.nextPromise ∧
    (setInstance st inst).resolutions =
      st.resolutions ++
        (match st.readyPromise with | some pid => [(pid, inst)] | none => []) := by
  unfold setInstance
  by_cases hc : inst.isSome && !({ st with unityInstance := inst } : BridgeState).queuedSends.isEmpty
  · simp only [hc, if_true]
    obtain ⟨g1, g2, g3, g4, g5, g6⟩ :=
      resolveReady_all (flushQueue { st with unityInstance := inst }) inst
    obtain ⟨f1, f2, f3, f4, f5⟩ := flushQueue_fields { st with unityInstance := inst }
    refine ⟨?_, g3, ?_, ?_⟩
    · rw [g1, f1]
    · rw [g4, f4]
    · rw [g6, f5, f3]
  · simp only [hc, if_false]
    obtain ⟨g1, g2, g3, g4, g5, g6⟩ :=
      resolveReady_all { st with unityInstance := inst } inst
    exact ⟨g1, g3, g4, g6⟩

theorem setInstance_flush_spec (st : BridgeState) (h : Handle)
    (hsm : h.hasSendMessage = true) :
    (setInstance st (some h)).queuedSends = [] ∧
    (setInstance st (some h)).calls =
      st.calls ++
        st.queuedSends.map (fun x => ⟨h.hid, x.objectName, x.methodName, sendArgOf x.payload⟩) := by
  unfold setInstance
  dsimp only
  by_cases hc : (some h : Option Handle).isSome &&
      !({ st with unityInstance := some h } : BridgeState).queuedSends.isEmpty
  · simp only [hc, if_true]
    obtain ⟨g1, g2, g3, g4, g5, g6⟩ :=
      resolveReady_all (flushQueue { st with unityInstance := some h }) (some h)
    obtain ⟨f1, f2, f3, f4, f5⟩ := flushQueue_fields { st with unityInstance := some h }
    refine ⟨by rw [g2, f2], ?_⟩
    rw [g5]
    unfold flushQueue
    simp only []
    rw [flushFold_calls ({ st with unityInstance := some h } : BridgeState).queuedSends
        { st with unityInstance := some h } h rfl hsm]
  · rw [if_neg hc]
    obtain ⟨g1, g2, g3, g4, g5, g6⟩ :=
      resolveReady_all { st with unityInstance := some h } (some h)
    have hqe : st.queuedSends = [] := by
      by_contra hne
      exact hc (by simp [List.isEmpty_iff, hne])
    refine ⟨by rw [g2]; exact hqe, by rw [g5]; simp [hqe]⟩

theorem clearInstance_fields (st : BridgeState) :
    (clearInstance st).unityInstance = none ∧
    (clearInstance st).readyPromise = none ∧
    (clearInstance st).nextPromise = st.nextPromise ∧
    (clearInstance st).resolutions = st.resolutions :=
  ⟨rfl, rfl, rfl, rfl⟩

theorem whenReady_of_some (st : BridgeState) (h : Handle)
    (hi : st.unityInstance = some h) : whenReady st = (st, .resolvedNow h) := by
  unfold whenReady; rw [hi]

theorem whenReady_none_pending (st : BridgeState) (pid : Nat)
    (hi : st.unityInstance = none) (hp : st.readyPromise = some pid) :
    whenReady st = (st, .pending pid) := by
  unfold whenReady; rw [hi, hp]

theorem whenReady_none_alloc (st : BridgeState)
    (hi : st.unityInstance = none) (hp : st.readyPromise = none) :
    whenReady st =
      ({ st with readyPromise := some st.nextPromise, nextPromise := st.nextPromise + 1 },
        .pending st.nextPromise) := by
  unfold whenReady; rw [hi, hp]

/-- C6: `send(target, method, payload, {queue})` is a total function of
the embedded state (it never throws to the caller) and always returns a
boolean: with a live handle it serializes the payload (a non-textual,
non-`undefined` payload becomes its JSON string), invokes the handle's
`SendMessage`, and returns `true` exactly when the call does not raise;
with no live handle it enqueues and returns `true` when `queue` is set,
and returns `false` leaving the state untouched when `queue` is unset. -/
theorem send_returns_boolean_contract (st : BridgeState) (o m : String) (p : JsVal)
    (q : Bool) :
    (∀ h, st.unityInstance = some h → h.hasSendMessage = true →
      (send st o m p q).1 = { st with calls := st.calls ++ [⟨h.hid, o, m, sendArgOf p⟩] } ∧
      (send st o m p q).2 = !h.sendRaises) ∧
    (hasLiveHandle st = false → q = true →
      send st o m p q = ({ st with queuedSends := st.queuedSends ++ [⟨o, m, p⟩] }, true)) ∧
    (hasLiveHandle st = false → q = false → send st o m p q = (st, false)) ∧
    ((∀ s, p ≠ .str s) → p ≠ .undef →
      ∃ js, jsonStringify p = some js ∧ sendArgOf p = .strA js) := by
  refine ⟨?_, ?_, ?_, ?_⟩
  · intro h hinst hsm
    obtain ⟨h1, h2⟩ := doSend_calls_of_live st h o m p hinst hsm
    rw [hinst] at h1
    unfold send
    rw [hinst]
    dsimp only
    rw [if_pos hsm]
    exact ⟨h1, h2⟩
  · intro hlive hq
    subst hq
    unfold send
    cases hinst : st.unityInstance with
    | none => simp
    | some h =>
      have hsm' : h.hasSendMessage = false := by
        unfold hasLiveHandle at hlive
        rw [hinst] at hlive
        simpa using hlive
      simp [hsm']
  · intro hlive hq
    subst hq
    unfold send
    cases hinst : st.unityInstance with
    | none => simp
    | some h =>
      have hsm' : h.hasSendMessage = false := by
        unfold hasLiveHandle at hlive
        rw [hinst] at hlive
        simpa using hlive
      simp [hsm']
  · intro hstr hundef
    cases p with
    | undef => exact absurd rfl hundef
    | str s => exact absurd rfl (hstr s)
    | null => exact ⟨_, rfl, rfl⟩
    | bool b => exact ⟨_, rfl, rfl⟩
    | num a b => exact ⟨_, rfl, rfl⟩
    | arr xs => exact ⟨_, rfl, rfl⟩
    | obj fs => exact ⟨_, rfl, rfl⟩

/-- Witness for C6: with no live handle and queuing disabled the call
reports failure and leaves the state untouched; the scenario's object
payload serializes to its JSON string. -/
theorem send_returns_boolean_contract_witness :
    hasLiveHandle BridgeState.init = false ∧
    send BridgeState.init "JSEventManager" "OnStartRound"
        (JsVal.obj [("userId", JsVal.str "user-123")]) false = (BridgeState.init, false) ∧
    sendArgOf (JsVal.obj [("userId", JsVal.str "user-123")]) =
      .strA "\x7b\"userId\":\"user-123\"\x7d" := by
  refine ⟨by decide, ?_, by decide⟩
  exact (send_returns_boolean_contract BridgeState.init "JSEventManager" "OnStartRound"
      (JsVal.obj [("userId", JsVal.str "user-123")]) false).2.2.1 (by decide) rfl

/-- C7: while no handle exists every `whenReady()` caller shares one
pending future; `setInstance h` resolves exactly that future with `h`,
and a `whenReady()` issued afterwards is immediately resolved with the
identical handle; after `clearInstance()` a fresh `whenReady()` returns
a new, distinct pending future that no resolution has touched.  The two
freshness hypotheses say the state's promise ids were allocated below
the fresh-id counter, as every reachable state satisfies. -/
theorem whenReady_shared_future_lifecycle (st : BridgeState) (h : Handle)
    (hnone : st.unityInstance = none)
    (hres : ∀ p ∈ st.resolutions, p.1 < st.nextPromise)
    (hrp : ∀ pid, st.readyPromise = some pid → pid < st.nextPromise) :
    ∃ pid,
      (whenReady st).2 = .pending pid ∧
      (whenReady (whenReady st).1).2 = .pending pid ∧
      (whenReady (whenReady st).1).1 = (whenReady st).1 ∧
      (pid, some h) ∈ (setInstance (whenReady st).1 (some h)).resolutions ∧
      (whenReady (setInstance (whenReady st).1 (some h))).2 = .resolvedNow h ∧
      ∃ pid2, pid2 ≠ pid ∧
        (whenReady (clearInstance (setInstance (whenReady st).1 (some h)))).2 =
          .pending pid2 ∧
        ∀ v, (pid2, v) ∉
          (whenReady (clearInstance (setInstance (whenReady st).1 (some h)))).1.resolutions := by
  cases hq : st.readyPromise with
  | some pid0 =>
    have hw : whenReady st = (st, .pending pid0) := whenReady_none_pending st pid0 hnone hq
    obtain ⟨s1, s2, s3, s4⟩ := setInstance_fields st (some h)
    have hres' : (setInstance st (some h)).resolutions = st.resolutions ++ [(pid0, some h)] := by
      rw [s4, hq]
    have hwr2 : (whenReady (setInstance st (some h))).2 = .resolvedNow h := by
      rw [whenReady_of_some (setInstance st (some h)) h s1]
    have hclear := clearInstance_fields (setInstance st (some h))
    have hwc : whenReady (clearInstance (setInstance st (some h))) =
        ({ clearInstance (setInstance st (some h)) with
            readyPromise := some (clearInstance (setInstance st (some h))).nextPromise,
            nextPromise := (clearInstance (setInstance st (some h))).nextPromise + 1 },
          .pending (clearInstance (setInstance st (some h))).nextPromise) :=
      whenReady_none_alloc _ hclear.1 hclear.2.1
    have hnx : (clearInstance (setInstance st (some h))).nextPromise = st.nextPromise := by
      rw [hclear.2.2.1, s3]
    have hpid0 : pid0 < st.nextPromise := hrp pid0 hq
    refine ⟨pid0, by rw [hw], ?_, ?_, ?_, ?_, ?_⟩
    · rw [hw]
      show (whenReady st).2 = Future.pending pid0
      rw [hw]
    · rw [hw]
      show (whenReady st).1 = st
      rw [hw]
    · rw [hw]
      show (pid0, some h) ∈ (setInstance st (some h)).resolutions
      rw [hres']
      simp
    · rw [hw]
      exact hwr2
    · refine ⟨st.nextPromise, by omega, ?_, ?_⟩
      · rw [hw]
        show (whenReady (clearInstance (setInstance st (some h)))).2 = _
        rw [hwc, hnx]
      · intro v hv
        rw [hw] at hv
        have hmem : (st.nextPromise, v) ∈
            (whenReady (clearInstance (setInstance st (some h)))).1.resolutions := hv
        rw [hwc] at hmem
        have hmem2 : (st.nextPromise, v) ∈
            (clearInstance (setInstance st (some h))).resolutions := hmem
        rw [hclear.2.2.2, hres'] at hmem2
        rcases List.mem_append.mp hmem2 with hin | hin
        · have h5 : st.nextPromise < st.nextPromise := hres _ hin
          omega
        · have h6 : st.nextPromise = pid0 :=
            congrArg Prod.fst (List.mem_singleton.mp hin)
          omega
  | none =>
    have hw : whenReady st =
        ({ st with readyPromise := some st.nextPromise, nextPromise := st.nextPromise + 1 },
          .pending st.nextPromise) := whenReady_none_alloc st hnone hq
    set stA : BridgeState :=
      { st with readyPromise := some st.nextPromise, nextPromise := st.nextPromise + 1 }
      with hstA
    have hA1 : stA.unityInstance = none := hnone
    have hA2 : stA.readyPromise = some st.nextPromise := rfl
    obtain ⟨s1, s2, s3, s4⟩ := setInstance_fields stA (some h)
    have hres' : (setInstance stA (some h)).resolutions =
        st.resolutions ++ [(st.nextPromise, some h)] := by
      rw [s4]
    have hwr2 : (whenReady (setInstance stA (some h))).2 = .resolvedNow h := by
      rw [whenReady_of_some (setInstance stA (some h)) h s1]
    have hclear := clearInstance_fields (setInstance stA (some h))
    have hnx : (clearInstance (setInstance stA (some h))).nextPromise = st.nextPromise + 1 := by
      rw [hclear.2.2.1, s3]
    have hwc : whenReady (clearInstance (setInstance stA (some h))) =
        ({ clearInstance (setInstance stA (some h)) with
            readyPromise := some (clearInstance (setInstance stA (some h))).nextPromise,
            nextPromise := (clearInstance (setInstance stA (some h))).nextPromise + 1 },
          .pending (clearInstance (setInstance stA (some h))).nextPromise) :=
      whenReady_none_alloc _ hclear.1 hclear.2.1
    refine ⟨st.nextPromise, by rw [hw], ?_, ?_, ?_, ?_, ?_⟩
    · rw [hw]
      show (whenReady stA).2 = Future.pending st.nextPromise
      rw [whenReady_none_pending stA st.nextPromise hA1 hA2]
    · rw [hw]
      show (whenReady stA).1 = stA
      rw [whenReady_none_pending stA st.nextPromise hA1 hA2]
    · rw [hw]
      show (st.nextPromise, some h) ∈ (setInstance stA (some h)).resolutions
      rw [hres']
      simp
    · rw [hw]
      exact hwr2
    · refine ⟨st.nextPromise + 1, by omega, ?_, ?_⟩
      · rw [hw]
        show (whenReady (clearInstance (setInstance stA (some h)))).2 = _
        rw [hwc, hnx]
      · intro v hv
        rw [hw] at hv
        have hmem : (st.nextPromise + 1, v) ∈
            (whenReady (clearInstance (setInstance stA (some h)))).1.resolutions := hv
        rw [hwc] at hmem
        have hmem2 : (st.nextPromise + 1, v) ∈
            (clearInstance (setInstance stA (some h))).resolutions := hmem
        rw [hclear.2.2.2, hres'] at hmem2
        rcases List.mem_append.mp hmem2 with hin | hin
        · have h5 : st.nextPromise + 1 < st.nextPromise := hres _ hin
          omega
        · have h6 : st.nextPromise + 1 = st.nextPromise :=
            congrArg Prod.fst (List.mem_singleton.mp hin)
          omega

/-- Witness for C7 at the initial bridge state and a concrete handle. -/
theorem whenReady_shared_future_lifecycle_witness :
    BridgeState.init.unityInstance = none ∧
    (∀ p ∈ BridgeState.init.resolutions, p.1 < BridgeState.init.nextPromise) ∧
    ∃ pid, (whenReady BridgeState.init).2 = Future.pending pid ∧
      (pid, some testHandle) ∈
        (setInstance (whenReady BridgeState.init).1 (some testHandle)).resolutions ∧
      (whenReady (setInstance (whenReady BridgeState.init).1 (some testHandle))).2 =
        Future.resolvedNow testHandle := by
  refine ⟨rfl, by simp [BridgeState.init], ?_⟩
  obtain ⟨pid, c1, _, _, c4, c5, _⟩ :=
    whenReady_shared_future_lifecycle BridgeState.init testHandle rfl
      (by simp [BridgeState.init]) (by simp [BridgeState.init])
  exact ⟨pid, c1, c4, c5⟩

/-- Sending with no installed handle and queuing enabled: every call
returns `true` and appends its message to the queue in order. -/
theorem sendMany_no_handle (msgs : List OutboundMessage) (st : BridgeState)
    (hno : st.unityInstance = none) :
    sendMany st msgs =
      ({ st with queuedSends := st.queuedSends ++ msgs },
        List.replicate msgs.length true) := by
  induction msgs generalizing st with
  | nil => simp [sendMany]
  | cons x rest ih =>
    unfold sendMany
    have hsend : send st x.objectName x.methodName x.payload true =
        ({ st with queuedSends := st.queuedSends ++ [x] }, true) := by
      unfold send
      rw [hno]
      simp
    rw [hsend]
    dsimp only
    rw [ih { st with queuedSends := st.queuedSends ++ [x] } hno]
    simp [List.replicate_succ]

/-- C2: for every sequence of `send` calls issued while no handle exists
(queuing enabled), each returns `true` and is enqueued in order; a
subsequent `setInstance` with a working handle invokes the handle's
`SendMessage` once per queued message, in the same order and count, each
payload serialized by `sendArgOf` (non-textual payloads become their
JSON strings), and the queue is empty afterwards. -/
theorem queued_sends_flush_in_order (st : BridgeState) (msgs : List OutboundMessage)
    (h : Handle) (hno : st.unityInstance = none) (hq : st.queuedSends = [])
    (hsm : h.hasSendMessage = true) :
    (sendMany st msgs).2 = List.replicate msgs.length true ∧
    (sendMany st msgs).1.queuedSends = msgs ∧
    (sendMany st msgs).1.calls = st.calls ∧
    (setInstance (sendMany st msgs).1 (some h)).queuedSends = [] ∧
    (setInstance (sendMany st msgs).1 (some h)).calls =
      st.calls ++
        msgs.map (fun x => ⟨h.hid, x.objectName, x.methodName, sendArgOf x.payload⟩) := by
  rw [sendMany_no_handle msgs st hno]
  obtain ⟨w1, w2⟩ :=
    setInstance_flush_spec { st with queuedSends := st.queuedSends ++ msgs } h hsm
  refine ⟨rfl, by simp [hq], rfl, w1, ?_⟩
  rw [w2]
  simp [hq]

/-- Witness for C2: the spec's scenario message is queued and then
delivered as `SendMessage('JSEventManager', 'OnStartRound',
'\x7b"userId":"user-123"\x7d')`. -/
theorem queued_sends_flush_in_order_witness :
    BridgeState.init.unityInstance = none ∧
    BridgeState.init.queuedSends = [] ∧
    testHandle.hasSendMessage = true ∧
    (sendMany BridgeState.init [exMsg]).2 = [true] ∧
    (setInstance (sendMany BridgeState.init [exMsg]).1 (some testHandle)).queuedSends = [] ∧
    (setInstance (sendMany BridgeState.init [exMsg]).1 (some testHandle)).calls =
      [⟨9, "JSEventManager", "OnStartRound",
        SendArg.strA "\x7b\"userId\":\"user-123\"\x7d"⟩] := by
  obtain ⟨c1, c2, c3, c4, c5⟩ :=
    queued_sends_flush_in_order BridgeState.init [exMsg] testHandle rfl rfl rfl
  refine ⟨rfl, rfl, rfl, c1, c4, ?_⟩
  rw [c5]
  decide

/-! ### Helper lemmas about inbound dispatch -/

theorem listenerAccepts_iff (detail : JsVal) :
    listenerAccepts detail = true ↔
      isTruthyObject detail = true ∧
        ¬(getField detail "type" = .undef ∨ getField detail "type" = .null) := by
  unfold listenerAccepts
  simp [not_or]

theorem dispatchEvent_eq (reg : Registry) (env : Nat → Bool) (detail : JsVal) :
    dispatchEvent reg env detail =
      if listenerAccepts detail then
        (emitToHandlers reg env (getField detail "type")
            (normalizePayload (getField detail "payload")),
          emitToGlobalHandlers reg env (getField detail "type")
            (normalizePayload (getField detail "payload")) (getField detail "meta"))
      else ([], []) := by
  unfold dispatchEvent listenerAccepts
  by_cases h1 : isTruthyObject detail
  · by_cases h2 : getField detail "type" = .undef ∨ getField detail "type" = .null
    · rcases h2 with h2 | h2 <;> simp [h1, h2]
    · rw [not_or] at h2
      simp [h1, h2.1, h2.2]
  · rw [Bool.not_eq_true] at h1
    simp [h1]

theorem emitToHandlers_trace (reg : Registry) (env : Nat → Bool) (ty p : JsVal) :
    (emitToHandlers reg env ty p).map (fun i => i.handler) =
      (lookupHandlers reg ty).getD [] := by
  unfold emitToHandlers
  cases hl : lookupHandlers reg ty with
  | none => simp
  | some s =>
    dsimp only
    rw [List.map_map]
    show List.map (fun f => f) s = s
    simp

theorem emitToGlobalHandlers_trace (reg : Registry) (env : Nat → Bool) (ty p mv : JsVal) :
    (emitToGlobalHandlers reg env ty p mv).map (fun g => g.handler) =
      reg.globalHandlers := by
  unfold emitToGlobalHandlers
  rw [List.map_map]
  show List.map (fun f => f) reg.globalHandlers = reg.globalHandlers
  simp

/-- C4: normalization runs once per inbound event and its result is the
one payload every per-type handler and every global observer receives:
a string payload that parses as JSON is replaced by the parsed
structured value, an unparsable string is kept verbatim, and a
non-string payload passes through unchanged (the concrete cases
evaluate the embedded `JSON.parse` itself). -/
theorem inbound_payload_normalized_once (reg : Registry) (env : Nat → Bool)
    (detail : JsVal) :
    (∀ inv ∈ (dispatchEvent reg env detail).1,
      inv.payload = normalizePayload (getField detail "payload")) ∧
    (∀ g ∈ (dispatchEvent reg env detail).2,
      g.payload = normalizePayload (getField detail "payload")) ∧
    (∀ s v, jsonParse s = some v → normalizePayload (.str s) = v) ∧
    (∀ s, jsonParse s = none → normalizePayload (.str s) = .str s) ∧
    (∀ p, (∀ s, p ≠ .str s) → normalizePayload p = p) ∧
    normalizePayload (.str "\x7b\"a\":1\x7d") = .obj [("a", JsVal.int 1)] ∧
    normalizePayload (.str "not-json") = .str "not-json" := by
  refine ⟨?_, ?_, ?_, ?_, ?_, by decide, by decide⟩
  · intro inv hm
    rw [dispatchEvent_eq] at hm
    by_cases hacc : listenerAccepts detail
    · rw [if_pos hacc] at hm
      have hm' : inv ∈ emitToHandlers reg env (getField detail "type")
          (normalizePayload (getField detail "payload")) := hm
      unfold emitToHandlers at hm'
      cases hl : lookupHandlers reg (getField detail "type") with
      | none => rw [hl] at hm'; simp at hm'
      | some s =>
        rw [hl] at hm'
        simp only [List.mem_map] at hm'
        obtain ⟨f, _, hf⟩ := hm'
        rw [← hf]
    · rw [if_neg hacc] at hm
      simp at hm
  · intro g hm
    rw [dispatchEvent_eq] at hm
    by_cases hacc : listenerAccepts detail
    · rw [if_pos hacc] at hm
      have hm' : g ∈ emitToGlobalHandlers reg env (getField detail "type")
          (normalizePayload (getField detail "payload")) (getField detail "meta") := hm
      unfold emitToGlobalHandlers at hm'
      simp only [List.mem_map] at hm'
      obtain ⟨f, _, hf⟩ := hm'
      rw [← hf]
    · rw [if_neg hacc] at hm
      simp at hm
  · intro s v hp
    unfold normalizePayload
    dsimp only
    rw [hp]
  · intro s hp
    unfold normalizePayload
    dsimp only
    rw [hp]
  · intro p hp
    cases p with
    | str s => exact absurd rfl (hp s)
    | undef => rfl
    | null => rfl
    | bool b => rfl
    | num a b => rfl
    | arr xs => rfl
    | obj fs => rfl

/-- Witness for C4: a registered handler receives the parsed object for
a JSON-string payload, and the spec's two concrete normalizations hold. -/
theorem inbound_payload_normalized_once_witness :
    (dispatchEvent (registerHandler Registry.init (JsVal.str "T") 1) (fun _ => false)
        (JsVal.obj [("type", JsVal.str "T"), ("payload", JsVal.str "\x7b\"a\":1\x7d")])).1 =
      [⟨1, JsVal.obj [("a", JsVal.int 1)], false⟩] ∧
    normalizePayload (JsVal.str "\x7b\"a\":1\x7d") = JsVal.obj [("a", JsVal.int 1)] ∧
    normalizePayload (JsVal.str "not-json") = JsVal.str "not-json" := by
  refine ⟨by decide, ?_, ?_⟩
  · exact (inbound_payload_normalized_once Registry.init (fun _ => false)
      JsVal.undef).2.2.2.2.2.1
  · exact (inbound_payload_normalized_once Registry.init (fun _ => false)
      JsVal.undef).2.2.2.2.2.2

/-- C5: a fault raised by any per-type handler or global observer is
caught at the dispatch boundary for that handler alone: the sequence of
handlers invoked (each exactly once, in registration order) does not
depend on which handlers fault, and equals the full registered set; the
dispatch function is total, so no fault reaches the dispatching caller. -/
theorem dispatch_isolates_handler_faults (reg : Registry) (env env' : Nat → Bool)
    (detail : JsVal) :
    ((dispatchEvent reg env detail).1.map (fun i => i.handler) =
      (dispatchEvent reg env' detail).1.map (fun i => i.handler)) ∧
    ((dispatchEvent reg env detail).2.map (fun g => g.handler) =
      (dispatchEvent reg env' detail).2.map (fun g => g.handler)) ∧
    (isTruthyObject detail = true →
      ¬(getField detail "type" = .undef ∨ getField detail "type" = .null) →
      (dispatchEvent reg env detail).1.map (fun i => i.handler) =
        (lookupHandlers reg (getField detail "type")).getD [] ∧
      (dispatchEvent reg env detail).2.map (fun g => g.handler) = reg.globalHandlers) := by
  by_cases hacc : listenerAccepts detail
  · rw [dispatchEvent_eq reg env detail, dispatchEvent_eq reg env' detail,
      if_pos hacc, if_pos hacc]
    refine ⟨?_, ?_, fun _ _ => ⟨?_, ?_⟩⟩
    · show (emitToHandlers reg env _ _).map _ = (emitToHandlers reg env' _ _).map _
      rw [emitToHandlers_trace, emitToHandlers_trace]
    · show (emitToGlobalHandlers reg env _ _ _).map _ =
        (emitToGlobalHandlers reg env' _ _ _).map _
      rw [emitToGlobalHandlers_trace, emitToGlobalHandlers_trace]
    · exact emitToHandlers_trace reg env _ _
    · exact emitToGlobalHandlers_trace reg env _ _ _
  · rw [dispatchEvent_eq reg env detail, dispatchEvent_eq reg env' detail,
      if_neg hacc, if_neg hacc]
    refine ⟨rfl, rfl, fun h1 h2 => absurd ((listenerAccepts_iff detail).mpr ⟨h1, h2⟩) hacc⟩

/-- Witness for C5: two handlers on one type, the first faulting — both
are invoked once, in order, and the trace records the caught fault. -/
theorem dispatch_isolates_handler_faults_witness :
    (dispatchEvent (registerHandler (registerHandler Registry.init (JsVal.str "T") 1)
          (JsVal.str "T") 2) (fun n => n == 1)
        (JsVal.obj [("type", JsVal.str "T")])).1.map (fun i => i.handler) = [1, 2] ∧
    (dispatchEvent (registerHandler (registerHandler Registry.init (JsVal.str "T") 1)
          (JsVal.str "T") 2) (fun n => n == 1)
        (JsVal.obj [("type", JsVal.str "T")])).1 =
      [⟨1, JsVal.undef, true⟩, ⟨2, JsVal.undef, false⟩] := by
  have h := (dispatch_isolates_handler_faults
      (registerHandler (registerHandler Registry.init (JsVal.str "T") 1) (JsVal.str "T") 2)
      (fun n => n == 1) (fun n => n == 1)
      (JsVal.obj [("type", JsVal.str "T")])).2.2 (by decide) (by decide)
  refine ⟨?_, by decide⟩
  rw [h.1]
  decide

/-- C10 (implicit): an inbound event whose detail is missing or not an
object, or whose `type` is `null`/`undefined`, is silently dropped — no
per-type handler and no global observer runs, and the listener mutates
no state (dispatch only reads the registry) — while a `type` of `0` or
`''` is still dispatched normally. -/
theorem listener_drops_malformed_events (reg : Registry) (env : Nat → Bool)
    (detail : JsVal) :
    (isTruthyObject detail = false → dispatchEvent reg env detail = ([], [])) ∧
    (getField detail "type" = .undef ∨ getField detail "type" = .null →
      dispatchEvent reg env detail = ([], [])) ∧
    dispatchEvent (registerHandler Registry.init (JsVal.int 0) 5) (fun _ => false)
        (JsVal.obj [("type", JsVal.int 0)]) = ([⟨5, .undef, false⟩], []) ∧
    dispatchEvent (registerHandler Registry.init (JsVal.str "") 7) (fun _ => false)
        (JsVal.obj [("type", JsVal.str ""), ("payload", JsVal.int 3)]) =
      ([⟨7, JsVal.int 3, false⟩], []) := by
  refine ⟨?_, ?_, by decide, by decide⟩
  · intro h1
    rw [dispatchEvent_eq, if_neg]
    intro hacc
    rw [listenerAccepts_iff] at hacc
    rw [h1] at hacc
    exact Bool.false_ne_true hacc.1
  · intro h2
    rw [dispatchEvent_eq, if_neg]
    intro hacc
    rw [listenerAccepts_iff] at hacc
    exact hacc.2 h2

/-- Witness for C10: a `null` detail (e.g. a falsy event or a missing
`detail` field) is dropped even with a handler registered. -/
theorem listener_drops_malformed_events_witness :
    isTruthyObject JsVal.null = false ∧
    dispatchEvent (registerHandler Registry.init (JsVal.str "T") 1) (fun _ => false)
      JsVal.null = ([], []) := by
  refine ⟨by decide, ?_⟩
  exact (listener_drops_malformed_events
    (registerHandler Registry.init (JsVal.str "T") 1) (fun _ => false) JsVal.null).1
    (by decide)

/-! ### Helper lemmas about the EventBus -/

theorem sumLen_pos_of_mem {l : List (JsVal × List Nat)} {p : JsVal × List Nat}
    (hm : p ∈ l) (hne : p.2 ≠ []) : 0 < (l.map (fun q => q.2.length)).sum := by
  induction l with
  | nil => cases hm
  | cons x xs ih =>
    simp only [List.map_cons, List.sum_cons]
    rcases List.mem_cons.mp hm with rfl | hm'
    · have hx : 0 < p.2.length := List.length_pos.mpr hne
      omega
    · have := ih hm'
      omega

theorem sumLen_zero_nil {l : List (JsVal × List Nat)}
    (hall : ∀ p ∈ l, p.2 ≠ []) (hz : (l.map (fun q => q.2.length)).sum = 0) :
    l = [] := by
  cases l with
  | nil => rfl
  | cons x xs =>
    exfalso
    have hpos := sumLen_pos_of_mem (List.mem_cons_self x xs)
      (hall x (List.mem_cons_self x xs))
    omega

theorem find?_map_update (l : List (JsVal × List Nat)) (ty : JsVal)
    (f : List Nat → List Nat) :
    (l.map (fun p => if p.1 = ty then (p.1, f p.2) else p)).find?
        (fun p => decide (p.1 = ty)) =
      (l.find? (fun p => decide (p.1 = ty))).map (fun p => (p.1, f p.2)) := by
  induction l with
  | nil => rfl
  | cons x xs ih =>
    by_cases hx : x.1 = ty
    · simp [List.find?, hx]
    · simp [List.find?, hx, ih]

theorem busInstall_spec (st : BusState) :
    (busInstall st).subscribers = st.subscribers ∧
    (busInstall st).installed = true ∧
    (st.bridgeForwarder = st.installed → (busInstall st).bridgeForwarder = true) := by
  unfold busInstall
  by_cases hi : st.installed = true
  · rw [if_pos hi]
    exact ⟨rfl, hi, fun hbf => hbf.trans hi⟩
  · rw [if_neg hi]
    exact ⟨rfl, rfl, fun _ => rfl⟩

theorem busMaybeUninstall_subscribers (st : BusState) :
    (busMaybeUninstall st).subscribers = st.subscribers := by
  unfold busMaybeUninstall
  by_cases hc : (st.installed && busCount st == 0) = true
  · rw [if_pos hc]
  · rw [if_neg hc]

theorem busMaybeUninstall_WF (st : BusState)
    (h1 : st.bridgeForwarder = st.installed)
    (h3 : ∀ p ∈ st.subscribers, p.2 ≠ [])
    (h0 : st.installed = false → busCount st = 0) :
    BusWF (busMaybeUninstall st) := by
  unfold busMaybeUninstall
  by_cases hc : (st.installed && busCount st == 0) = true
  · rw [if_pos hc]
    have hcnt : busCount st = 0 := by
      have hand := (Bool.and_eq_true _ _).mp hc
      exact beq_iff_eq.mp hand.2
    refine ⟨rfl, ?_, h3⟩
    constructor
    · intro hh
      exact absurd hh (by simp)
    · intro hpos
      have hp2 : 0 < busCount st := hpos
      omega
  · rw [if_neg hc]
    refine ⟨h1, ?_, h3⟩
    cases hinst : st.installed with
    | false =>
      have hz := h0 hinst
      constructor
      · intro hh
        exact absurd hh (by simp)
      · intro hpos
        have hp2 : 0 < busCount st := hpos
        omega
    | true =>
      have hcne : busCount st ≠ 0 := by
        intro hz
        exact hc (by rw [hinst, hz]; rfl)
      exact ⟨fun _ => Nat.pos_of_ne_zero hcne, fun _ => rfl⟩

theorem subscribe_WF (st : BusState) (ty : JsVal) (h : Nat) (hwf : BusWF st) :
    BusWF (subscribe st ty h) := by
  obtain ⟨w1, w2, w3⟩ := hwf
  obtain ⟨b1, b2, b3⟩ := busInstall_spec st
  unfold subscribe
  dsimp only
  cases hl : busLookup (busInstall st) ty with
  | some s =>
    obtain ⟨pr, hfind, hpr2⟩ := Option.map_eq_some'.mp hl
    have hprmem : pr ∈ (busInstall st).subscribers := List.mem_of_find?_eq_some hfind
    have hprty : pr.1 = ty := by
      have hp := List.find?_some hfind
      simpa using hp
    have hprne : pr.2 ≠ [] := by
      rw [b1] at hprmem
      exact w3 pr hprmem
    have hupdne : (if h ∈ pr.2 then pr.2 else pr.2 ++ [h]) ≠ [] := by
      by_cases hmem : h ∈ pr.2
      · rw [if_pos hmem]; exact hprne
      · rw [if_neg hmem]
        intro hcontra
        exact absurd (List.append_eq_nil.mp hcontra).2 (by simp)
    refine ⟨?_, ?_, ?_⟩
    · show (busInstall st).bridgeForwarder = (busInstall st).installed
      rw [b2, b3 w1]
    · show (busInstall st).installed = true ↔ 0 <
        (((busInstall st).subscribers.map (fun p =>
          if p.1 = ty then (p.1, if h ∈ p.2 then p.2 else p.2 ++ [h]) else p)).map
            (fun q => q.2.length)).sum
      rw [b2]
      constructor
      · intro _
        refine sumLen_pos_of_mem (p := (pr.1, if h ∈ pr.2 then pr.2 else pr.2 ++ [h])) ?_ hupdne
        refine List.mem_map.mpr ⟨pr, hprmem, ?_⟩
        rw [if_pos hprty]
      · intro _; rfl
    · intro p hp
      rcases List.mem_map.mp hp with ⟨q, hq, hqe⟩
      by_cases hqt : q.1 = ty
      · rw [if_pos hqt] at hqe
        rw [← hqe]
        by_cases hqm : h ∈ q.2
        · rw [if_pos hqm]
          exact w3 q (b1 ▸ hq)
        · rw [if_neg hqm]
          intro hcontra
          exact absurd (List.append_eq_nil.mp hcontra).2 (by simp)
      · rw [if_neg hqt] at hqe
        rw [← hqe]
        exact w3 q (b1 ▸ hq)
  | none =>
    refine ⟨?_, ?_, ?_⟩
    · show (busInstall st).bridgeForwarder = (busInstall st).installed
      rw [b2, b3 w1]
    · show (busInstall st).installed = true ↔ 0 <
        (((busInstall st).subscribers ++ [(ty, [h])]).map (fun q => q.2.length)).sum
      rw [b2]
      simp
    · intro p hp
      rcases List.mem_append.mp hp with hp' | hp'
      · exact w3 p (b1 ▸ hp')
      · rw [List.mem_singleton.mp hp']
        simp

theorem unsubscribe_WF (st : BusState) (ty : JsVal) (h : Nat) (hwf : BusWF st) :
    BusWF (unsubscribe st ty h) := by
  obtain ⟨w1, w2, w3⟩ := hwf
  unfold unsubscribe
  dsimp only
  cases hl : busLookup st ty with
  | none => exact ⟨w1, w2, w3⟩
  | some s =>
    obtain ⟨pr, hfind, hpr2⟩ := Option.map_eq_some'.mp hl
    have hprmem : pr ∈ st.subscribers := List.mem_of_find?_eq_some hfind
    have hinst : st.installed = true := by
      cases hi : st.installed with
      | true => rfl
      | false =>
        exfalso
        have hz : busCount st = 0 := by
          by_contra hnz
          exact absurd (w2.mpr (Nat.pos_of_ne_zero hnz)) (by rw [hi]; simp)
        have : st.subscribers = [] := sumLen_zero_nil w3 hz
        rw [this] at hprmem
        cases hprmem
    dsimp only
    by_cases hse : (s.erase h).isEmpty = true
    · rw [if_pos hse]
      apply busMaybeUninstall_WF
      · exact w1
      · intro p hp
        exact w3 p (List.mem_of_mem_filter hp)
      · intro hcontra
        have hc2 : st.installed = false := hcontra
        rw [hinst] at hc2
        exact absurd hc2 (by simp)
    · rw [if_neg hse]
      apply busMaybeUninstall_WF
      · exact w1
      · intro p hp
        rcases List.mem_map.mp hp with ⟨q, hq, hqe⟩
        by_cases hqt : q.1 = ty
        · rw [if_pos hqt] at hqe
          rw [← hqe]
          intro hcontra
          have hc2 : s.erase h = [] := hcontra
          rw [hc2] at hse
          exact hse rfl
        · rw [if_neg hqt] at hqe
          rw [← hqe]
          exact w3 q hq
      · intro hcontra
        have hc2 : st.installed = false := hcontra
        rw [hinst] at hc2
        exact absurd hc2 (by simp)

theorem once_WF (st : BusState) (ty : JsVal) (w : Nat) (hwf : BusWF st) :
    BusWF (once st ty w) := subscribe_WF st ty w hwf

theorem clear_WF (st : BusState) (t : Option JsVal) (hwf : BusWF st) :
    BusWF (clear st t) := by
  obtain ⟨w1, w2, w3⟩ := hwf
  unfold clear
  cases t with
  | none =>
    apply busMaybeUninstall_WF
    · exact w1
    · intro p hp; cases hp
    · intro _; rfl
  | some ty =>
    apply busMaybeUninstall_WF
    · exact w1
    · intro p hp
      exact w3 p (List.mem_of_mem_filter hp)
    · intro hif
      have hz : busCount st = 0 := by
        by_contra hnz
        exact absurd (w2.mpr (Nat.pos_of_ne_zero hnz)) (by rw [hif]; simp)
      have hnil : st.subscribers = [] := sumLen_zero_nil w3 hz
      show ((st.subscribers.filter _).map (fun q => q.2.length)).sum = 0
      rw [hnil]
      rfl

/-- A well-formed bus with no subscriber is exactly the empty bus. -/
theorem busWF_count_zero (st : BusState) (hwf : BusWF st) (hz : busCount st = 0) :
    st = ⟨[], false, false⟩ := by
  obtain ⟨w1, w2, w3⟩ := hwf
  have hs : st.subscribers = [] := sumLen_zero_nil w3 hz
  have hi : st.installed = false := by
    cases hic : st.installed with
    | false => rfl
    | true => exact absurd (w2.mp hic) (by omega)
  have hb : st.bridgeForwarder = false := by rw [w1, hi]
  cases st
  simp_all

/-- From the empty bus: `subscribe` then its unsubscriber leaves the
forwarder uninstalled. -/
theorem bus_scenario_sub_unsub (ty : JsVal) (h : Nat) :
    unsubscribe (subscribe ⟨[], false, false⟩ ty h) ty h = ⟨[], false, false⟩ := by
  simp [subscribe, busInstall, busLookup, unsubscribe, busMaybeUninstall, busCount,
    List.find?]

/-- From the empty bus: with two types subscribed, unsubscribing one
leaves the forwarder installed and the other type still dispatched to. -/
theorem bus_scenario_two_types (ty1 ty2 : JsVal) (h1 h2 : Nat) (payload mv : JsVal)
    (hne : ty1 ≠ ty2) :
    unsubscribe (subscribe (subscribe ⟨[], false, false⟩ ty1 h1) ty2 h2) ty1 h1 =
      ⟨[(ty2, [h2])], true, true⟩ ∧
    (runForwarder (fun _ => .plain false) ⟨[(ty2, [h2])], true, true⟩ ty2 payload mv).2 =
      [⟨h2, payload, mv, false⟩] := by
  constructor
  · simp [subscribe, busInstall, busLookup, unsubscribe, busMaybeUninstall, busCount,
      List.find?, hne, Ne.symm hne]
  · simp [runForwarder, busLookup, List.find?, runBusHandler]

/-- C8: reference-counted forwarder activation — `BusWF` (the forwarder
sits in the Bridge's global set iff the total subscriber count is
positive, mirrored by `_installed`, with no empty sets retained) is
preserved by `subscribe`, `unsubscribe`, `once` and `clear`; from an
empty bus, subscribe-then-unsubscribe leaves zero installations, and
with two types subscribed, unsubscribing one keeps the forwarder
installed and the other type still receives dispatches through it. -/
theorem eventbus_forwarder_refcount_invariant (st : BusState) (hwf : BusWF st) :
    (∀ ty h, BusWF (subscribe st ty h)) ∧
    (∀ ty h, BusWF (unsubscribe st ty h)) ∧
    (∀ ty w, BusWF (once st ty w)) ∧
    (∀ t, BusWF (clear st t)) ∧
    (st.bridgeForwarder = true ↔ 0 < busCount st) ∧
    (∀ ty h, busCount st = 0 →
      (unsubscribe (subscribe st ty h) ty h).bridgeForwarder = false) ∧
    (∀ ty1 ty2 h1 h2 payload mv, ty1 ≠ ty2 → busCount st = 0 →
      (unsubscribe (subscribe (subscribe st ty1 h1) ty2 h2) ty1 h1).bridgeForwarder = true ∧
      (runForwarder (fun _ => .plain false)
          (unsubscribe (subscribe (subscribe st ty1 h1) ty2 h2) ty1 h1) ty2 payload mv).2 =
        [⟨h2, payload, mv, false⟩]) := by
  refine ⟨fun ty h => subscribe_WF st ty h hwf,
    fun ty h => unsubscribe_WF st ty h hwf,
    fun ty w => once_WF st ty w hwf,
    fun t => clear_WF st t hwf,
    by rw [hwf.1]; exact hwf.2.1, ?_, ?_⟩
  · intro ty h hz
    rw [busWF_count_zero st hwf hz, bus_scenario_sub_unsub]
  · intro ty1 ty2 h1 h2 payload mv hne hz
    rw [busWF_count_zero st hwf hz]
    obtain ⟨hA, hB⟩ := bus_scenario_two_types ty1 ty2 h1 h2 payload mv hne
    rw [hA]
    exact ⟨rfl, hB⟩

/-- Witness for C8 at the initial (empty, uninstalled) bus state. -/
theorem eventbus_forwarder_refcount_invariant_witness :
    BusWF BusState.init ∧
    busCount BusState.init = 0 ∧
    (unsubscribe (subscribe BusState.init (JsVal.str "A") 3) (JsVal.str "A")
      3).bridgeForwarder = false ∧
    (subscribe BusState.init (JsVal.str "A") 3).bridgeForwarder = true := by
  refine ⟨by decide, rfl, ?_, by decide⟩
  exact (eventbus_forwarder_refcount_invariant BusState.init (by decide)).2.2.2.2.2.1
    (JsVal.str "A") 3 rfl

/-- C9: `once(T, h)` invokes `h` exactly once across two (or more)
separate dispatches of `T`: the first dispatch runs `h` once (the fault
flag `r` propagates out of the wrapper into the dispatch loop's catch),
the wrapper has self-unsubscribed afterwards even when `h` faulted, and
a second dispatch from the resulting state invokes nothing and changes
nothing. -/
theorem once_fires_exactly_once (st : BusState) (ty payload mv : JsVal) (w i : Nat)
    (env : Nat → HSpec) (r : Bool)
    (hlook : busLookup st ty = none)
    (henv : env w = .onceWrap ty w i r) :
    (runForwarder env (once st ty w) ty payload mv).2 = [⟨i, payload, mv, r⟩] ∧
    busLookup (runForwarder env (once st ty w) ty payload mv).1 ty = none ∧
    (runForwarder env (runForwarder env (once st ty w) ty payload mv).1 ty payload mv).2 =
      [] ∧
    (runForwarder env (runForwarder env (once st ty w) ty payload mv).1 ty payload mv).1 =
      (runForwarder env (once st ty w) ty payload mv).1 := by
  obtain ⟨b1, b2, b3⟩ := busInstall_spec st
  have hfind_none :
      (busInstall st).subscribers.find? (fun p => decide (p.1 = ty)) = none := by
    rw [b1]
    unfold busLookup at hlook
    exact Option.map_eq_none'.mp hlook
  have hlook1 : busLookup (busInstall st) ty = none := by
    unfold busLookup
    rw [hfind_none]
    rfl
  have honce : once st ty w =
      { busInstall st with subscribers := (busInstall st).subscribers ++ [(ty, [w])] } := by
    unfold once subscribe
    dsimp only
    rw [hlook1]
  have hlk1 : busLookup (once st ty w) ty = some [w] := by
    rw [honce]
    unfold busLookup
    dsimp only
    rw [List.find?_append, hfind_none]
    simp [List.find?]
  have hrun1 : runForwarder env (once st ty w) ty payload mv =
      (unsubscribe (once st ty w) ty w, [⟨i, payload, mv, r⟩]) := by
    unfold runForwarder
    rw [hlk1]
    dsimp only
    rw [if_neg (by simp)]
    simp only [List.foldl_cons, List.foldl_nil]
    unfold runBusHandler
    rw [henv]
    simp
  have hfa : (busInstall st).subscribers.filter (fun p => !decide (p.1 = ty)) =
      (busInstall st).subscribers := by
    apply List.filter_eq_self.mpr
    intro p hp
    have hnp := List.find?_eq_none.mp hfind_none p hp
    simpa using hnp
  have huns : unsubscribe (once st ty w) ty w = busMaybeUninstall (busInstall st) := by
    rw [honce]
    unfold unsubscribe
    dsimp only
    have hlk1' : busLookup
        { busInstall st with
          subscribers := (busInstall st).subscribers ++ [(ty, [w])] } ty = some [w] := by
      rw [← honce]
      exact hlk1
    rw [hlk1']
    dsimp only
    rw [if_pos (by simp)]
    congr 1
    have hfilt : (((busInstall st).subscribers ++ [(ty, [w])]).filter
        (fun p => !decide (p.1 = ty))) = (busInstall st).subscribers := by
      rw [List.filter_append, hfa]
      simp
    rw [hfilt]
  have hlkf : busLookup (busMaybeUninstall (busInstall st)) ty = none := by
    unfold busLookup
    rw [busMaybeUninstall_subscribers, hfind_none]
    rfl
  refine ⟨by rw [hrun1], ?_, ?_, ?_⟩
  · rw [hrun1]
    show busLookup (unsubscribe (once st ty w) ty w) ty = none
    rw [huns]
    exact hlkf
  · rw [hrun1]
    show (runForwarder env (unsubscribe (once st ty w) ty w) ty payload mv).2 = []
    rw [huns]
    unfold runForwarder
    rw [hlkf]
  · rw [hrun1]
    show (runForwarder env (unsubscribe (once st ty w) ty w) ty payload mv).1 =
      unsubscribe (once st ty w) ty w
    rw [huns]
    unfold runForwarder
    rw [hlkf]

/-- Witness for C9: a concrete `once` wrapper (id 0) around a faulting
handler (id 1) fires it exactly once over two dispatches. -/
theorem once_fires_exactly_once_witness :
    busLookup BusState.init (JsVal.str "T") = none ∧
    (runForwarder
        (fun n => if n = 0 then HSpec.onceWrap (JsVal.str "T") 0 1 true
          else HSpec.plain false)
        (once BusState.init (JsVal.str "T") 0) (JsVal.str "T") JsVal.null JsVal.undef).2 =
      [⟨1, JsVal.null, JsVal.undef, true⟩] ∧
    (runForwarder
        (fun n => if n = 0 then HSpec.onceWrap (JsVal.str "T") 0 1 true
          else HSpec.plain false)
        (runForwarder
          (fun n => if n = 0 then HSpec.onceWrap (JsVal.str "T") 0 1 true
            else HSpec.plain false)
          (once BusState.init (JsVal.str "T") 0) (JsVal.str "T") JsVal.null
          JsVal.undef).1 (JsVal.str "T") JsVal.null JsVal.undef).2 = [] := by
  obtain ⟨c1, c2, c3, c4⟩ :=
    once_fires_exactly_once BusState.init (JsVal.str "T") JsVal.null JsVal.undef 0 1
      (fun n => if n = 0 then HSpec.onceWrap (JsVal.str "T") 0 1 true
        else HSpec.plain false)
      true rfl rfl
  exact ⟨rfl, c1, c3⟩

/-- C1 (code bug): in the overlapping-load scenario the second attempt
commits — state `ready`, its instance in `unityInstance`, `loadError`
clear — and the stale first attempt quits its freshly built instance and
never touches `unityInstance`/`unityInstanceRef` (so nothing stale is
ever published to the Bridge, which mirrors `unityInstance`).  But the
stale branch's `Promise.reject(new Error('Stale Unity load result'))`
flows into the `.catch` attached right after the `.then`, which runs
`setLoadError(err)` and `setLoadingState(ERROR)`: the stale attempt is
observable via `loadError` and `loadingState`, overwriting `ready`,
contrary to the claim (and to the code's own `// ignore it` comment). -/
theorem stale_load_attempt_observable_via_error_state :
    overlapStates.1.loadingState = .ready ∧
    overlapStates.1.unityInstance = some freshInst ∧
    overlapStates.1.loadError = none ∧
    overlapStates.2.quits = [1] ∧
    overlapStates.2.unityInstance = some freshInst ∧
    overlapStates.2.unityInstanceRef = some freshInst ∧
    overlapStates.2.loadingState = .error ∧
    overlapStates.2.loadError = some .staleLoadResult := by decide

/-- C3 counterexample: a loader-script (phase 1) failure records the
typed error in `loadError` and rejects the load promise, but
`loadingState` stays `loading` — never `error` — refuting the claim
that failure in either phase sets the state to `Error`. -/
theorem loader_script_error_keeps_loading_state :
    (scriptFailed (injectLoaderStart LoaderState.mount)).1.loadingState = .loading ∧
    (scriptFailed (injectLoaderStart LoaderState.mount)).1.loadingState ≠ .error ∧
    (scriptFailed (injectLoaderStart LoaderState.mount)).1.loadError =
      some .loaderScriptFailed ∧
    (scriptFailed (injectLoaderStart LoaderState.mount)).1.unityInstance = none := by
  decide

/-- C3 amended: a phase-2 construction failure sets state `error` and
records the typed creation error; a phase-1 loader-script failure
records the typed error and rejects the load promise but leaves
`loadingState` unchanged (still `loading` during a load); in neither
case is an instance exposed via the hook's state or published. -/
theorem load_failure_error_recording (st : LoaderState) (e : Nat) :
    (createRejected st e).1.loadingState = .error ∧
    (createRejected st e).1.loadError = some (.creationFailed e) ∧
    (createRejected st e).1.unityInstance = st.unityInstance ∧
    (createRejected st e).1.unityInstanceRef = st.unityInstanceRef ∧
    (createRejected st e).2 = .creationFailed e ∧
    (scriptFailed st).1.loadError = some .loaderScriptFailed ∧
    (scriptFailed st).1.loadingState = st.loadingState ∧
    (scriptFailed st).1.unityInstance = st.unityInstance ∧
    (scriptFailed st).1.unityInstanceRef = st.unityInstanceRef :=
  ⟨rfl, rfl, rfl, rfl, rfl, rfl, rfl, rfl, rfl⟩

end ReactUnity
